import Mathlib

/-!
Verification development for the tracker-app catalog/cache subsystem
(src/player.py, with row shapes from src/main.py).

The Python code is shallowly embedded: pure helpers become Lean functions,
the module-level mutable caches and the on-disk state become an explicit
`ServerState` threaded through the operations, and the network is an
explicit parameter.  Machine integers are `Nat` with explicit `% 2^w`.
-/

/-! ## Python string primitives -/

/-- Whitespace characters recognised by Python str.strip() on ASCII input
(space, tab, newline, carriage return, vertical tab, form feed). -/
def pyWsChars : List Char := [' ', '\t', '\n', '\r', Char.ofNat 11, Char.ofNat 12]

/-- Test for Python ASCII whitespace. -/
def isPyWs (c : Char) : Bool := pyWsChars.contains c

/-- Drop the given characters from the front of a character list. -/
def stripLead (cs : List Char) (l : List Char) : List Char :=
  l.dropWhile (fun c => cs.contains c)

/-- Python str.strip(chars): drop the given characters from both ends. -/
def stripBothChars (cs : List Char) (l : List Char) : List Char :=
  (stripLead cs (stripLead cs l).reverse).reverse

/-- Python str.strip() with no argument: strip whitespace from both ends. -/
def pyStripWs (s : String) : String := ⟨stripBothChars pyWsChars s.data⟩

/-- ASCII lower-casing; agrees with Python str.lower() on the ASCII
host names and extensions that occur in this program. -/
def pyLower (s : String) : String := ⟨s.data.map Char.toLower⟩

/-- Does the text start with the given pattern (exact characters)? -/
def listStartsWith : List Char → List Char → Bool
  | [], _ => true
  | _ :: _, [] => false
  | p :: ps, c :: cs => p == c && listStartsWith ps cs

/-- Substring containment of `pat` in a character list, as Python `pat in s`. -/
def listHasSub (pat : List Char) : List Char → Bool
  | [] => pat.isEmpty
  | c :: cs => listStartsWith pat (c :: cs) || listHasSub pat cs

/-- Python substring test `pat in s`. -/
def strHasSub (s pat : String) : Bool := listHasSub pat.data s.data

/-- Leftmost-match search: try the matcher at every start position, in order,
exactly as re.search scans its subject. -/
def scanLeftmost (p : List Char → Option α) : List Char → Option α
  | [] => p []
  | c :: cs =>
    match p (c :: cs) with
    | some r => some r
    | none => scanLeftmost p cs

/-- Case-insensitive literal match (the pattern is given in lower case);
returns the rest of the text after the literal. -/
def matchLitCI : List Char → List Char → Option (List Char)
  | [], s => some s
  | _ :: _, [] => none
  | p :: ps, c :: cs => if c.toLower == p then matchLitCI ps cs else none

/-- Characters matched by `[a-f0-9]` under re.IGNORECASE. -/
def isHexLetterDigit (c : Char) : Bool :=
  (97 ≤ c.toNat && c.toNat ≤ 102) || (65 ≤ c.toNat && c.toNat ≤ 70) ||
    (48 ≤ c.toNat && c.toNat ≤ 57)

/-- Characters matched by `[a-zA-Z0-9]`. -/
def isAsciiAlnum (c : Char) : Bool :=
  (97 ≤ c.toNat && c.toNat ≤ 122) || (65 ≤ c.toNat && c.toNat ≤ 90) ||
    (48 ≤ c.toNat && c.toNat ≤ 57)

/-! ## Host link extractors (player.py lines 105-126) -/

/-- One attempt of the regex pillows\.su/f/([a-f0-9]+) (IGNORECASE) at the
head of the text; a greedy non-empty capture follows the literal. -/
def pillowsAt (s : List Char) : Option (List Char) :=
  match matchLitCI "pillows.su/f/".data s with
  | none => none
  | some rest =>
    let cap := rest.takeWhile isHexLetterDigit
    if cap.isEmpty then none else some cap

/-- extract_pillows_hash: re.search of pillows\.su/f/([a-f0-9]+), group 1. -/
def extract_pillows_hash (link : String) : Option String :=
  if link == "" then none
  else (scanLeftmost pillowsAt link.data).map (fun l => (⟨l⟩ : String))

/-- One attempt of files\.yetracker\.org/f/([a-zA-Z0-9]+) at the head. -/
def yetrackerAt (s : List Char) : Option (List Char) :=
  match matchLitCI "files.yetracker.org/f/".data s with
  | none => none
  | some rest =>
    let cap := rest.takeWhile isAsciiAlnum
    if cap.isEmpty then none else some cap

/-- extract_yetracker_id: re.search of files\.yetracker\.org/f/([a-zA-Z0-9]+). -/
def extract_yetracker_id (link : String) : Option String :=
  if link == "" then none
  else (scanLeftmost yetrackerAt link.data).map (fun l => (⟨l⟩ : String))

/-- One attempt of pixeldrain\.com/u/([a-zA-Z0-9]+) at the head. -/
def pixeldrainAt (s : List Char) : Option (List Char) :=
  match matchLitCI "pixeldrain.com/u/".data s with
  | none => none
  | some rest =>
    let cap := rest.takeWhile isAsciiAlnum
    if cap.isEmpty then none else some cap

/-- extract_pixeldrain_id: re.search of pixeldrain\.com/u/([a-zA-Z0-9]+). -/
def extract_pixeldrain_id (link : String) : Option String :=
  if link == "" then none
  else (scanLeftmost pixeldrainAt link.data).map (fun l => (⟨l⟩ : String))

/-! ## MD5 (hashlib.md5), over `Nat` bytes with explicit mod-2^32 arithmetic -/

/-- The 32-bit modulus. -/
def m32 : Nat := 4294967296

/-- 32-bit addition. -/
def add32 (a b : Nat) : Nat := (a + b) % m32

/-- Left rotation of a 32-bit word (argument assumed below 2^32). -/
def rotl32 (x n : Nat) : Nat := ((x <<< n) + (x >>> (32 - n))) % m32

/-- The 64 MD5 sine-derived constants (RFC 1321 table T). -/
def md5K : List Nat :=
  [0xd76aa478, 0xe8c7b756, 0x242070db, 0xc1bdceee,
   0xf57c0faf, 0x4787c62a, 0xa8304613, 0xfd469501,
   0x698098d8, 0x8b44f7af, 0xffff5bb1, 0x895cd7be,
   0x6b901122, 0xfd987193, 0xa679438e, 0x49b40821,
   0xf61e2562, 0xc040b340, 0x265e5a51, 0xe9b6c7aa,
   0xd62f105d, 0x02441453, 0xd8a1e681, 0xe7d3fbc8,
   0x21e1cde6, 0xc33707d6, 0xf4d50d87, 0x455a14ed,
   0xa9e3e905, 0xfcefa3f8, 0x676f02d9, 0x8d2a4c8a,
   0xfffa3942, 0x8771f681, 0x6d9d6122, 0xfde5380c,
   0xa4beea44, 0x4bdecfa9, 0xf6bb4b60, 0xbebfbc70,
   0x289b7ec6, 0xeaa127fa, 0xd4ef3085, 0x04881d05,
   0xd9d4d039, 0xe6db99e5, 0x1fa27cf8, 0xc4ac5665,
   0xf4292244, 0x432aff97, 0xab9423a7, 0xfc93a039,
   0x655b59c3, 0x8f0ccc92, 0xffeff47d, 0x85845dd1,
   0x6fa87e4f, 0xfe2ce6e0, 0xa3014314, 0x4e0811a1,
   0xf7537e82, 0xbd3af235, 0x2ad7d2bb, 0xeb86d391]

/-- The 64 MD5 per-round left-rotation amounts. -/
def md5S : List Nat :=
  [7, 12, 17, 22, 7, 12, 17, 22, 7, 12, 17, 22, 7, 12, 17, 22,
   5, 9, 14, 20, 5, 9, 14, 20, 5, 9, 14, 20, 5, 9, 14, 20,
   4, 11, 16, 23, 4, 11, 16, 23, 4, 11, 16, 23, 4, 11, 16, 23,
   6, 10, 15, 21, 6, 10, 15, 21, 6, 10, 15, 21, 6, 10, 15, 21]

/-- The MD5 round mixing functions F, G, H, I by round index. -/
def md5Mix (i b c d : Nat) : Nat :=
  if i < 16 then (b &&& c) ||| ((b ^^^ 4294967295) &&& d)
  else if i < 32 then (d &&& b) ||| ((d ^^^ 4294967295) &&& c)
  else if i < 48 then b ^^^ c ^^^ d
  else c ^^^ (b ||| (d ^^^ 4294967295))

/-- The MD5 message-word index schedule. -/
def md5GIdx (i : Nat) : Nat :=
  if i < 16 then i
  else if i < 32 then (5 * i + 1) % 16
  else if i < 48 then (3 * i + 5) % 16
  else (7 * i) % 16

/-- The four 32-bit MD5 chaining words. -/
structure Md5State where
  a : Nat
  b : Nat
  c : Nat
  d : Nat
deriving Repr, DecidableEq

/-- One of the 64 MD5 rounds on one block, `w` being its 16 message words. -/
def md5Round (w : List Nat) (st : Md5State) (i : Nat) : Md5State :=
  let f := (md5Mix i st.b st.c st.d + st.a + md5K.getD i 0 + w.getD (md5GIdx i) 0) % m32
  { a := st.d, b := add32 st.b (rotl32 f (md5S.getD i 0)), c := st.b, d := st.c }

/-- Little-endian packing of four bytes into one 32-bit word. -/
def bytesToWord (b0 b1 b2 b3 : Nat) : Nat :=
  b0 + 256 * b1 + 65536 * b2 + 16777216 * b3

/-- Split a 64-byte block into its 16 little-endian words. -/
def blockWords : List Nat → List Nat
  | b0 :: b1 :: b2 :: b3 :: rest => bytesToWord b0 b1 b2 b3 :: blockWords rest
  | _ => []

/-- Process one 64-byte block. -/
def md5Block (st : Md5State) (block : List Nat) : Md5State :=
  let w := blockWords block
  let r := (List.range 64).foldl (md5Round w) st
  { a := add32 st.a r.a, b := add32 st.b r.b, c := add32 st.c r.c, d := add32 st.d r.d }

/-- Little-endian 8-byte encoding of the 64-bit message bit length. -/
def lenBytes64 (n : Nat) : List Nat :=
  [n % 256, (n >>> 8) % 256, (n >>> 16) % 256, (n >>> 24) % 256,
   (n >>> 32) % 256, (n >>> 40) % 256, (n >>> 48) % 256, (n >>> 56) % 256]

/-- MD5 padding: a 0x80 byte, zeros to 56 mod 64, then the bit length. -/
def md5Pad (msg : List Nat) : List Nat :=
  let r := msg.length % 64
  let zeros := (119 - r) % 64
  msg ++ 128 :: (List.replicate zeros 0 ++ lenBytes64 ((8 * msg.length) % 18446744073709551616))

/-- Split a byte list into 64-byte chunks. -/
def chunks64 : List Nat → List (List Nat)
  | [] => []
  | b :: rest => (b :: rest).take 64 :: chunks64 ((b :: rest).drop 64)
termination_by l => l.length
decreasing_by
  simp only [List.length_drop, List.length_cons]
  omega

/-- The MD5 initial chaining state. -/
def md5Init : Md5State :=
  { a := 0x67452301, b := 0xefcdab89, c := 0x98badcfe, d := 0x10325476 }

/-- Little-endian serialisation of one 32-bit word into four bytes. -/
def wordLEBytes (x : Nat) : List Nat :=
  [x % 256, (x >>> 8) % 256, (x >>> 16) % 256, (x >>> 24) % 256]

/-- The 16-byte MD5 digest of a byte string. -/
def md5Bytes (msg : List Nat) : List Nat :=
  let fin := (chunks64 (md5Pad msg)).foldl md5Block md5Init
  wordLEBytes fin.a ++ (wordLEBytes fin.b ++ (wordLEBytes fin.c ++ wordLEBytes fin.d))

/-- The sixteen lower-case hexadecimal digits. -/
def hexDigits : List Char := "0123456789abcdef".data

/-- One hexadecimal digit character (defined for n < 16). -/
def hexChar (n : Nat) : Char :=
  if n < 10 then Char.ofNat (48 + n) else Char.ofNat (87 + n)

/-- Two hex characters of one byte. -/
def byteHexChars (b : Nat) : List Char := [hexChar (b / 16 % 16), hexChar (b % 16)]

/-- hexdigest() of the MD5 of a byte string, as a character list. -/
def md5HexChars (msg : List Nat) : List Char :=
  (md5Bytes msg).foldr (fun b acc => byteHexChars b ++ acc) []

/-- UTF-8 bytes of a string, the Python str.encode(). -/
def strBytes (s : String) : List Nat := s.toUTF8.toList.map (fun b => b.toNat)

/-! ## Track records (player.py lines 129-136 and 176-253) -/

/-- One raw catalog row, as produced by split_sections in main.py: the
cleaned sheet cells plus the `_row` sheet row number. -/
structure RawTrack where
  row : Nat
  era : String
  name : String
  notes : String
  quality : String
  link : String
  availableLength : String
  trackLength : String
deriving Repr, DecidableEq

/-- generate_track_id: md5 of "row:era:name" (raw fields, fixed ":" separator),
first 16 characters of the hex digest. -/
def generate_track_id (t : RawTrack) : String :=
  ⟨(md5HexChars (strBytes (toString t.row ++ ":" ++ t.era ++ ":" ++ t.name))).take 16⟩

/-- One processed track record, mirroring the dict built in load_tracks. -/
structure Track where
  id : String
  name : String
  era : String
  notes : String
  quality : String
  available_length : String
  track_length : String
  hash : String
  host : String
  original_link : String
deriving Repr, DecidableEq

/-- The record built by load_tracks for one accepted row. -/
def mkTrackRecord (t : RawTrack) (quality link hashVal host : String) : Track :=
  { id := generate_track_id t
    name := pyStripWs t.name
    era := pyStripWs t.era
    notes := pyStripWs t.notes
    quality := quality
    available_length := pyStripWs t.availableLength
    track_length := pyStripWs t.trackLength
    hash := hashVal
    host := host
    original_link := link }

/-- The body of the per-row loop of load_tracks (player.py lines 193-249):
skip the "Not Available" sentinel, then dispatch on the first host whose
domain occurs in the lower-cased link, requiring a captured identifier. -/
def classifyRow (t : RawTrack) : Option Track :=
  let link := pyStripWs t.link
  let quality := pyStripWs t.quality
  if quality == "Not Available" then none
  else if strHasSub (pyLower link) "pillows.su" then
    match extract_pillows_hash link with
    | some h => some (mkTrackRecord t quality link h "pillows")
    | none => none
  else if strHasSub (pyLower link) "files.yetracker.org" then
    match extract_yetracker_id link with
    | some h => some (mkTrackRecord t quality link h "yetracker")
    | none => none
  else if strHasSub (pyLower link) "pixeldrain.com" then
    match extract_pixeldrain_id link with
    | some h => some (mkTrackRecord t quality link h "pixeldrain")
    | none => none
  else none


/-! ## Filesystem and server state -/

/-- A filesystem path, as a list of components below the data directory. -/
abbrev FsPath := List String

/-- The part of the on-disk state the store touches: explicitly created
directories and regular files.  The file list order is the directory
iteration order. -/
structure FS where
  dirs : List FsPath
  files : List FsPath
deriving Repr, DecidableEq

/-- Does a regular file exist at this path? -/
def FS.fileExists (fs : FS) (p : FsPath) : Bool := fs.files.contains p

/-- Is `f` strictly below directory `d`? -/
def pathStrictUnder (d f : FsPath) : Bool :=
  d.isPrefixOf f && decide (d.length < f.length)

/-- Does `d` exist as a directory (explicitly created, or holding a file)? -/
def FS.dirIsDir (fs : FS) (d : FsPath) : Bool :=
  fs.dirs.contains d || fs.files.any (fun f => pathStrictUnder d f)

/-- The regular files directly inside directory `d`, in iteration order. -/
def FS.filesIn (fs : FS) (d : FsPath) : List FsPath :=
  fs.files.filter (fun f => d.isPrefixOf f && decide (f.length = d.length + 1))

/-- mkdir(parents=True, exist_ok=True). -/
def FS.mkdirp (fs : FS) (d : FsPath) : FS :=
  if fs.dirs.contains d then fs else { fs with dirs := fs.dirs ++ [d] }

/-- Create a regular file at a path not currently present. -/
def FS.writeNew (fs : FS) (p : FsPath) : FS :=
  { fs with files := fs.files ++ [p] }

/-- The server-side mutable state of player.py: the audio cache filesystem,
the parsed contents of sheet.json on disk (none when the file is missing),
the two in-memory caches, and the last-refresh timestamp. -/
structure ServerState where
  fs : FS
  diskJson : Option (List RawTrack)
  tracksCache : Option (List Track)
  trackIndex : Option (List Track)
  lastRefresh : Option Nat
deriving Repr, DecidableEq

/-- The error raised by load_tracks when sheet.json is missing. -/
inductive LoadErr where
  | fileNotFound
deriving Repr, DecidableEq

/-- load_tracks (player.py lines 176-253): serve the cache when present,
else read and filter sheet.json, then publish the cache. -/
def load_tracks (st : ServerState) : Except LoadErr (List Track × ServerState) :=
  match st.tracksCache with
  | some ts => .ok (ts, st)
  | none =>
    match st.diskJson with
    | none => .error .fileNotFound
    | some rows =>
      let processed := rows.filterMap classifyRow
      .ok (processed, { st with tracksCache := some processed })

/-- get_track_index (player.py lines 256-268): serve the cached index, else
build it from load_tracks.  The Python dict is kept as the track list; the
lookup below reproduces the later-entry-wins dict semantics. -/
def get_track_index (st : ServerState) : Except LoadErr (List Track × ServerState) :=
  match st.trackIndex with
  | some idx => .ok (idx, st)
  | none =>
    match load_tracks st with
    | .error e => .error e
    | .ok (ts, st1) => .ok (ts, { st1 with trackIndex := some ts })

/-- Lookup in the dict {t["id"]: t for t in tracks}: on duplicate ids the
later insertion overwrites the earlier one. -/
def dictGet (ts : List Track) (tid : String) : Option Track :=
  (ts.filter (fun t => t.id == tid)).getLast?

/-- The host's base directory (player.py lines 293-298 and 327-335). -/
def baseDirOf (host : String) : FsPath :=
  if host == "yetracker" then ["audio_yetracker"]
  else if host == "pixeldrain" then ["audio_pixeldrain"]
  else ["audio"]

/-- The recognised media extensions of get_audio_path. -/
def audioExts : List String := [".mp3", ".m4a", ".flac", ".wav", ".ogg", ".opus"]

/-- The last path component. -/
def fileNameOf (p : FsPath) : String := p.getLastD ""

/-- The index of the last dot of a character list, if any. -/
def lastDotIdx (l : List Char) : Option Nat :=
  (List.range l.length).foldl
    (fun acc i => if l.getD i ' ' == '.' then some i else acc) none

/-- pathlib Path.suffix: the part of the name from its last dot, when that
dot is at an interior position; otherwise the empty string. -/
def pySuffix (name : String) : String :=
  match lastDotIdx name.data with
  | none => ""
  | some i =>
    if 0 < i && i + 1 < name.data.length then ⟨name.data.drop i⟩ else ""

/-- Does this path name a file with a recognised media extension? -/
def isAudioFile (p : FsPath) : Bool :=
  audioExts.contains (pyLower (pySuffix (fileNameOf p)))

/-- The filesystem-lookup body of get_audio_path (player.py lines 290-315):
first any recognised media file inside the per-id directory, then, for the
pillows host only, the legacy flat file base/<id><ext>. -/
def resolvePath (fs : FS) (t : Track) : Option FsPath :=
  let file_id := t.hash
  let base_dir := baseDirOf t.host
  let id_dir := base_dir ++ [file_id]
  let fromDir :=
    if fs.dirIsDir id_dir then (fs.filesIn id_dir).find? isAudioFile else none
  match fromDir with
  | some p => some p
  | none =>
    if t.host == "pillows" then
      (audioExts.find? (fun ext => fs.fileExists (base_dir ++ [file_id ++ ext]))).map
        (fun ext => base_dir ++ [file_id ++ ext])
    else none

/-- get_audio_path (player.py lines 284-315): look the track up in the
index, then resolve its cached file; only reads the filesystem. -/
def get_audio_path (st : ServerState) (tid : String) :
    Except LoadErr (Option FsPath × ServerState) :=
  match get_track_index st with
  | .error e => .error e
  | .ok (idx, st1) => .ok ((dictGet idx tid).bind (fun t => resolvePath st1.fs t), st1)

/-! ## Untrusted header parsing and filename selection (player.py 352-398) -/

/-- The single-quote character (ASCII 39). -/
def sqChar : Char := Char.ofNat 39

/-- Numeric value of one hexadecimal digit character. -/
def hexVal (c : Char) : Option Nat :=
  let n := c.toNat
  if 48 ≤ n && n ≤ 57 then some (n - 48)
  else if 97 ≤ n && n ≤ 102 then some (n - 87)
  else if 65 ≤ n && n ≤ 70 then some (n - 55)
  else none

/-- UTF-8 encoding of one character. -/
def utf8EncodeChar (c : Char) : List Nat :=
  let n := c.toNat
  if n < 128 then [n]
  else if n < 2048 then [192 + n / 64, 128 + n % 64]
  else if n < 65536 then [224 + n / 4096, 128 + n / 64 % 64, 128 + n % 64]
  else [240 + n / 262144, 128 + n / 4096 % 64, 128 + n / 64 % 64, 128 + n % 64]

/-- Percent-decoding to bytes: a % followed by two hex digits becomes one
byte; everything else contributes its UTF-8 bytes unchanged. -/
def pctBytes : List Char → List Nat
  | [] => []
  | '%' :: a :: b :: rest =>
    match hexVal a, hexVal b with
    | some x, some y => (16 * x + y) :: pctBytes rest
    | _, _ => utf8EncodeChar '%' ++ pctBytes (a :: b :: rest)
  | c :: rest => utf8EncodeChar c ++ pctBytes rest

/-- The replacement character U+FFFD. -/
def repChar : Char := Char.ofNat 65533

/-- Is this code point valid for a Char (not a surrogate, below 0x110000)? -/
def validCp (n : Nat) : Bool :=
  (n < 55296 || (57343 < n && n < 1114112))

/-- Is this byte a UTF-8 continuation byte? -/
def contByte (x : Nat) : Bool := 128 ≤ x && x < 192

/-- Decode one two-byte UTF-8 sequence (replacement when overlong). -/
def dec2 (b b1 : Nat) : Char :=
  let cp := (b - 192) * 64 + (b1 - 128)
  if 128 ≤ cp then Char.ofNat cp else repChar

/-- Decode one three-byte UTF-8 sequence (replacement when overlong or a
surrogate). -/
def dec3 (b b1 b2 : Nat) : Char :=
  let cp := (b - 224) * 4096 + (b1 - 128) * 64 + (b2 - 128)
  if 2048 ≤ cp && validCp cp then Char.ofNat cp else repChar

/-- Decode one four-byte UTF-8 sequence (replacement when out of range). -/
def dec4 (b b1 b2 b3 : Nat) : Char :=
  let cp := (b - 240) * 262144 + (b1 - 128) * 4096 + (b2 - 128) * 64 + (b3 - 128)
  if 65536 ≤ cp && validCp cp then Char.ofNat cp else repChar

/-- UTF-8 decoding with replacement of invalid sequences, as Python's
errors="replace" behaves on the inputs arising here (it agrees with
CPython on well-formed sequences; all claim-relevant inputs are ASCII). -/
def utf8DecodeRep : List Nat → List Char
  | [] => []
  | [b] => if b < 128 then [Char.ofNat b] else [repChar]
  | [b, b1] =>
    if b < 128 then Char.ofNat b :: utf8DecodeRep [b1]
    else if 192 ≤ b && b < 224 then
      if contByte b1 then [dec2 b b1] else repChar :: utf8DecodeRep [b1]
    else if 224 ≤ b && b < 245 then [repChar]
    else repChar :: utf8DecodeRep [b1]
  | [b, b1, b2] =>
    if b < 128 then Char.ofNat b :: utf8DecodeRep [b1, b2]
    else if 192 ≤ b && b < 224 then
      if contByte b1 then dec2 b b1 :: utf8DecodeRep [b2]
      else repChar :: utf8DecodeRep [b1, b2]
    else if 224 ≤ b && b < 240 then
      if contByte b1 && contByte b2 then [dec3 b b1 b2]
      else repChar :: utf8DecodeRep [b1, b2]
    else if 240 ≤ b && b < 245 then [repChar]
    else repChar :: utf8DecodeRep [b1, b2]
  | b :: b1 :: b2 :: b3 :: r4 =>
    if b < 128 then Char.ofNat b :: utf8DecodeRep (b1 :: b2 :: b3 :: r4)
    else if 192 ≤ b && b < 224 then
      if contByte b1 then dec2 b b1 :: utf8DecodeRep (b2 :: b3 :: r4)
      else repChar :: utf8DecodeRep (b1 :: b2 :: b3 :: r4)
    else if 224 ≤ b && b < 240 then
      if contByte b1 && contByte b2 then dec3 b b1 b2 :: utf8DecodeRep (b3 :: r4)
      else repChar :: utf8DecodeRep (b1 :: b2 :: b3 :: r4)
    else if 240 ≤ b && b < 245 then
      if contByte b1 && (contByte b2 && contByte b3) then dec4 b b1 b2 b3 :: utf8DecodeRep r4
      else repChar :: utf8DecodeRep (b1 :: b2 :: b3 :: r4)
    else repChar :: utf8DecodeRep (b1 :: b2 :: b3 :: r4)

/-- urllib.parse.unquote: percent-decode, UTF-8 with replacement. -/
def pyUnquote (s : String) : String := ⟨utf8DecodeRep (pctBytes s.data)⟩

/-- One attempt of the regex filename\*=UTF-8''([^;]+) (IGNORECASE) at the
head of the text. -/
def tryFilenameStar (s : List Char) : Option (List Char) :=
  match matchLitCI ("filename*=utf-8".data ++ [sqChar, sqChar]) s with
  | none => none
  | some rest =>
    let cap := rest.takeWhile (fun c => c != ';')
    if cap.isEmpty then none else some cap

/-- re.search of filename\*=UTF-8''([^;]+), group 1. -/
def matchFilenameStar (cd : String) : Option String :=
  (scanLeftmost tryFilenameStar cd.data).map (fun l => (⟨l⟩ : String))

/-- One attempt of filename\s*=\s*q([^q]+)q for a quote character q. -/
def tryQuoted (q : Char) (s : List Char) : Option (List Char) :=
  match matchLitCI "filename".data s with
  | none => none
  | some r1 =>
    match r1.dropWhile isPyWs with
    | '=' :: r3 =>
      match r3.dropWhile isPyWs with
      | c :: r5 =>
        if c == q then
          let cap := r5.takeWhile (fun x => x != q)
          if cap.isEmpty then none
          else
            match r5.drop cap.length with
            | x :: _ => if x == q then some cap else none
            | [] => none
        else none
      | [] => none
    | _ => none

/-- re.search of filename\s*=\s*"([^"]+)" (IGNORECASE), group 1. -/
def matchQuotedD (cd : String) : Option String :=
  (scanLeftmost (tryQuoted '"') cd.data).map (fun l => (⟨l⟩ : String))

/-- re.search of the single-quoted variant, group 1. -/
def matchQuotedS (cd : String) : Option String :=
  (scanLeftmost (tryQuoted sqChar) cd.data).map (fun l => (⟨l⟩ : String))

/-- One attempt of filename\s*=\s*([^;]+) at the head of the text.  When
the run after the greedy \s* is empty or starts with a semicolon, the
regex backtracks one whitespace character into the capture. -/
def tryUnquoted (s : List Char) : Option (List Char) :=
  match matchLitCI "filename".data s with
  | none => none
  | some r1 =>
    match r1.dropWhile isPyWs with
    | '=' :: r3 =>
      let w := r3.takeWhile isPyWs
      let rest := r3.drop w.length
      match rest with
      | c :: _ =>
        if c == ';' then (w.getLast?).map (fun cw => [cw])
        else some (rest.takeWhile (fun x => x != ';'))
      | [] => (w.getLast?).map (fun cw => [cw])
    | _ => none

/-- re.search of filename\s*=\s*([^;]+) (IGNORECASE), group 1. -/
def matchUnquoted (cd : String) : Option String :=
  (scanLeftmost tryUnquoted cd.data).map (fun l => (⟨l⟩ : String))

/-- The generic name derived from Content-Type by the fixed table
(player.py lines 384-398), with the ".mp3" default. -/
def contentTypeName (ct : String) : String :=
  let ext :=
    if strHasSub ct "audio/mpeg" || strHasSub ct "audio/mp3" then ".mp3"
    else if strHasSub ct "audio/mp4" || strHasSub ct "audio/m4a" then ".m4a"
    else if strHasSub ct "audio/flac" then ".flac"
    else if strHasSub ct "audio/wav" then ".wav"
    else if strHasSub ct "audio/ogg" then ".ogg"
    else ".mp3"
  "audio" ++ ext

/-- The filename-selection logic of download_track (player.py lines
352-398), before sanitization: the filename* branch is stripped then
percent-decoded; the quoted and unquoted branches are percent-decoded when
non-empty; an absent header, no match, or an empty selected value falls
through to the Content-Type table. -/
def chooseFilename (cd ct : String) : String :=
  let ofn : Option String :=
    if cd == "" then none
    else
      match matchFilenameStar cd with
      | some g => some (pyUnquote (pyStripWs g))
      | none =>
        let r :=
          match matchQuotedD cd with
          | some v => some v
          | none =>
            match matchQuotedS cd with
            | some v => some v
            | none => (matchUnquoted cd).map pyStripWs
        match r with
        | some v => if v == "" then some v else some (pyUnquote v)
        | none => none
  match ofn with
  | some v => if v == "" then contentTypeName ct else v
  | none => contentTypeName ct

/-! ## Filename sanitization (player.py lines 271-281) -/

/-- The characters replaced by sanitize_filename. -/
def illegalChars : List Char := ['<', '>', ':', '"', '/', '\\', '|', '?', '*']

/-- os.path.splitext on a name without path separators: split at the last
dot unless every character before it is a dot. -/
def pySplitext (l : List Char) : List Char × List Char :=
  match lastDotIdx l with
  | none => (l, [])
  | some i =>
    if (l.take i).all (fun c => c == '.') then (l, [])
    else (l.take i, l.drop i)

/-- Python slicing s[:k] with a possibly negative bound. -/
def pySliceTo (l : List Char) (k : Int) : List Char :=
  if 0 ≤ k then l.take k.toNat else l.take (l.length - (-k).toNat)

/-- sanitize_filename: replace illegal characters by underscores, strip
leading and trailing dots and spaces, apply the length limit via
name[:200-len(ext)] + ext, and fall back to "audio_file" when empty. -/
def sanitize_filename (s : String) : String :=
  let replaced := s.data.map (fun c => if illegalChars.contains c then '_' else c)
  let stripped := stripBothChars ['.', ' '] replaced
  let limited :=
    if 200 < stripped.length then
      let pr := pySplitext stripped
      pySliceTo pr.1 (200 - (pr.2.length : Int)) ++ pr.2
    else stripped
  if limited.isEmpty then "audio_file" else ⟨limited⟩

/-! ## Download-on-miss and refresh (player.py lines 139-166 and 318-423) -/

/-- The response the remote host gives to the single GET request: the
Content-Disposition and Content-Type headers.  A failed request (network
error, timeout, non-success status) is the `none` environment. -/
structure RespData where
  contentDisp : String
  contentType : String
deriving Repr, DecidableEq

/-- download_track (player.py lines 318-423): look the track up, reuse any
resolved cached file, otherwise issue the network request (counted in the
third component), derive and sanitize the destination filename, create the
per-id directory, and reuse or write the destination file. -/
def download_track (st : ServerState) (tid : String) (net : Option RespData) :
    Except LoadErr (Option FsPath × ServerState × Nat) :=
  match get_track_index st with
  | .error e => .error e
  | .ok (idx, st1) =>
    match dictGet idx tid with
    | none => .ok (none, st1, 0)
    | some t =>
      let file_id := t.hash
      let base_dir := baseDirOf t.host
      let id_dir := base_dir ++ [file_id]
      match get_audio_path st1 tid with
      | .error e => .error e
      | .ok (existing, st2) =>
        match existing with
        | some p => .ok (some p, st2, 0)
        | none =>
          match net with
          | none => .ok (none, st2, 1)
          | some resp =>
            let fname := sanitize_filename (chooseFilename resp.contentDisp resp.contentType)
            let fs3 := st2.fs.mkdirp id_dir
            let audio_path := id_dir ++ [fname]
            if fs3.fileExists audio_path then .ok (some audio_path, { st2 with fs := fs3 }, 1)
            else .ok (some audio_path, { st2 with fs := fs3.writeNew audio_path }, 1)

/-- The environment of one refresh attempt: either every step (sheet
download, CSV parse, JSON save) succeeds with the given new rows at the
given time, or some step raises, leaving sheet.json in the given state
(unchanged when the failure precedes the save). -/
inductive RefreshEnv where
  | ok (rows : List RawTrack) (now : Nat)
  | fail (disk : Option (List RawTrack))
deriving Repr

/-- refresh_sheet (player.py lines 139-166): on success write sheet.json,
clear both caches and record the time, returning True; on any exception
return False without touching the in-memory caches. -/
def refresh_sheet (st : ServerState) : RefreshEnv → Bool × ServerState
  | .ok rows now =>
    (true, { st with diskJson := some rows, tracksCache := none,
                     trackIndex := none, lastRefresh := some now })
  | .fail disk => (false, { st with diskJson := disk })

/-! ## The catalog listing (player.py lines 721-739) -/

/-- api_tracks: the JSON listing, one key-value record per track with
exactly the seven public fields, in the order the dict literal writes. -/
def api_tracks (st : ServerState) :
    Except LoadErr (List (List (String × String)) × ServerState) :=
  match load_tracks st with
  | .error e => .error e
  | .ok (ts, st1) =>
    .ok (ts.map (fun t =>
      [("id", t.id), ("name", t.name), ("era", t.era), ("notes", t.notes),
       ("quality", t.quality), ("available_length", t.available_length),
       ("track_length", t.track_length)]), st1)

/-! ## Claim-side predicates and concrete instances -/

/-- The inclusion predicate in the words of the inclusion claim: quality is
not the sentinel, the link matches exactly one supported host pattern, and
that host's extraction yields an identifier. -/
def claimIncludedC2 (t : RawTrack) : Bool :=
  let link := pyStripWs t.link
  let mP := strHasSub (pyLower link) "pillows.su"
  let mY := strHasSub (pyLower link) "files.yetracker.org"
  let mX := strHasSub (pyLower link) "pixeldrain.com"
  let matchCount := (if mP then 1 else 0) + (if mY then 1 else 0) + (if mX then 1 else 0)
  let extOk :=
    if mP then (extract_pillows_hash link).isSome
    else if mY then (extract_yetracker_id link).isSome
    else if mX then (extract_pixeldrain_id link).isSome
    else false
  (pyStripWs t.quality != "Not Available") && (decide (matchCount = 1) && extOk)

/-- The amended inclusion predicate: quality is not the sentinel, and the
first host (in the fixed order pillows, yetracker, pixeldrain) whose domain
occurs in the lower-cased link has an extraction that yields an identifier. -/
def amendedIncludedC2 (t : RawTrack) : Bool :=
  let link := pyStripWs t.link
  (pyStripWs t.quality != "Not Available") &&
    (if strHasSub (pyLower link) "pillows.su" then (extract_pillows_hash link).isSome
     else if strHasSub (pyLower link) "files.yetracker.org" then (extract_yetracker_id link).isSome
     else if strHasSub (pyLower link) "pixeldrain.com" then (extract_pixeldrain_id link).isSome
     else false)

/-- The filename chain in the words of the header-parsing claim: (a) the
extended parameter percent-decoded, else (b) double-quoted, else (c)
single-quoted, else (d) unquoted up to the next semicolon, else (e) the
Content-Type table. -/
def claimChainC7 (cd ct : String) : String :=
  match matchFilenameStar cd with
  | some g => pyUnquote g
  | none =>
    match matchQuotedD cd with
    | some v => v
    | none =>
      match matchQuotedS cd with
      | some v => v
      | none =>
        match matchUnquoted cd with
        | some v => v
        | none => contentTypeName ct

/-- The amended filename chain: the same priority order, with the extended
parameter whitespace-stripped then percent-decoded, the quoted and
unquoted values percent-decoded (the unquoted one stripped first), and a
fall-through to the Content-Type table when the header is absent, nothing
matches, or the selected value is empty. -/
def amendedChainC7 (cd ct : String) : String :=
  let chosen : Option String :=
    if cd == "" then none
    else
      match matchFilenameStar cd with
      | some cap => some (pyUnquote (pyStripWs cap))
      | none =>
        let bcd : Option String :=
          match matchQuotedD cd with
          | some v => some v
          | none =>
            match matchQuotedS cd with
            | some v => some v
            | none => (matchUnquoted cd).map pyStripWs
        bcd.map (fun v => if v == "" then v else pyUnquote v)
  match chosen with
  | some v => if v == "" then contentTypeName ct else v
  | none => contentTypeName ct

/-- A processed pillows track used by the concrete states below. -/
def trackA : Track :=
  { id := "t1", name := "N", era := "E", notes := "", quality := "CDQ",
    available_length := "", track_length := "", hash := "abc", host := "pillows",
    original_link := "https://pillows.su/f/abc" }

/-- A server state with a published one-track snapshot and an empty cache. -/
def warmSt : ServerState :=
  { fs := { dirs := [], files := [] }, diskJson := some [],
    tracksCache := some [trackA], trackIndex := some [trackA], lastRefresh := none }

/-- A response whose attachment filename has an unrecognised extension. -/
def respAac : RespData := { contentDisp := "attachment; filename=\"x.aac\"", contentType := "" }

/-- A response whose attachment filename has a recognised extension. -/
def respMp3 : RespData := { contentDisp := "attachment; filename=\"x.mp3\"", contentType := "" }

/-- The state after downloading x.mp3 for trackA from `warmSt`. -/
def warmStAfter : ServerState :=
  { fs := { dirs := [["audio", "abc"]], files := [["audio", "abc", "x.mp3"]] },
    diskJson := some [], tracksCache := some [trackA], trackIndex := some [trackA],
    lastRefresh := none }

/-- A server state whose per-id directory already holds a media file. -/
def cachedSt : ServerState :=
  { fs := { dirs := [["audio", "abc"]], files := [["audio", "abc", "song.mp3"]] },
    diskJson := some [], tracksCache := some [trackA], trackIndex := some [trackA],
    lastRefresh := none }

/-- The network-request count of a download result. -/
def netOf (r : Except LoadErr (Option FsPath × ServerState × Nat)) : Nat :=
  match r with
  | .ok x => x.2.2
  | .error _ => 0

/-- The resulting state of a download result, with a default for errors. -/
def stOf (r : Except LoadErr (Option FsPath × ServerState × Nat)) (d : ServerState) : ServerState :=
  match r with
  | .ok x => x.2.1
  | .error _ => d

/-- The returned path of a download result. -/
def pathOf (r : Except LoadErr (Option FsPath × ServerState × Nat)) : Option FsPath :=
  match r with
  | .ok x => x.1
  | .error _ => none

/-- A dual-host row: its link contains both the pillows and the yetracker
domains, and both extractions would succeed. -/
def dualRow : RawTrack :=
  { row := 2, era := "E", name := "Dual", notes := "", quality := "CDQ",
    link := "https://pillows.su/f/abc https://files.yetracker.org/f/XYZ9",
    availableLength := "", trackLength := "" }

/-- A row whose link contains the pillows domain but defeats the pillows
pattern, while containing a valid yetracker link. -/
def shadowedRow : RawTrack :=
  { row := 3, era := "E", name := "Shadowed", notes := "", quality := "CDQ",
    link := "https://pillows.su/x/q https://files.yetracker.org/f/5YWrQGTB",
    availableLength := "", trackLength := "" }

/-- The pillows example row of the spec. -/
def exampleRowP : RawTrack :=
  { row := 2, era := "EraA", name := "Song P", notes := "", quality := "CDQ",
    link := "https://pillows.su/f/abc123def456", availableLength := "2:00",
    trackLength := "2:00" }

/-- The yetracker example row of the spec. -/
def exampleRowY : RawTrack :=
  { row := 3, era := "EraA", name := "Song Y", notes := "", quality := "CDQ",
    link := "https://files.yetracker.org/f/5YWrQGTB", availableLength := "",
    trackLength := "" }

/-- Two rows agreeing on the (row, era, name) triple and nothing else. -/
def triRowA : RawTrack :=
  { row := 7, era := "X", name := "Y", notes := "n1", quality := "CDQ",
    link := "l1", availableLength := "", trackLength := "" }

/-- The second of the two triple-equal rows. -/
def triRowB : RawTrack :=
  { row := 7, era := "X", name := "Y", notes := "n2", quality := "Not Available",
    link := "l2", availableLength := "a", trackLength := "b" }

/-- The input exhibiting the sanitize_filename length-limit slip: a short
stem with a 201-character extension. -/
def longExtInput : String := ⟨'x' :: '.' :: List.replicate 200 'a'⟩

/-- A cold state whose sheet.json holds exactly the dual-host row. -/
def c2DiskSt : ServerState :=
  { fs := { dirs := [], files := [] }, diskJson := some [dualRow],
    tracksCache := none, trackIndex := none, lastRefresh := none }

/-- The listing entry api_tracks produces for trackA. -/
def trackAListing : List (String × String) :=
  [("id", "t1"), ("name", "N"), ("era", "E"), ("notes", ""), ("quality", "CDQ"),
   ("available_length", ""), ("track_length", "")]

/-! ## Helper lemmas -/

/-- A successful load_tracks only fills the tracks cache. -/
theorem load_tracks_ok_state {st : ServerState} {ts : List Track} {st1 : ServerState}
    (h : load_tracks st = .ok (ts, st1)) :
    st1.fs = st.fs ∧ st1.diskJson = st.diskJson ∧ st1.tracksCache = some ts ∧
      st1.trackIndex = st.trackIndex ∧ st1.lastRefresh = st.lastRefresh := by
  unfold load_tracks at h
  cases hc : st.tracksCache with
  | some ts0 =>
    rw [hc] at h
    simp only [Except.ok.injEq, Prod.mk.injEq] at h
    obtain ⟨rfl, rfl⟩ := h
    exact ⟨rfl, rfl, hc, rfl, rfl⟩
  | none =>
    rw [hc] at h
    cases hd : st.diskJson with
    | none => rw [hd] at h; exact absurd h (by simp)
    | some rows =>
      rw [hd] at h
      simp only [Except.ok.injEq, Prod.mk.injEq] at h
      obtain ⟨rfl, rfl⟩ := h
      exact ⟨rfl, rfl, rfl, rfl, rfl⟩

/-- A successful get_track_index only fills the caches, and records the
returned index. -/
theorem get_track_index_ok_state {st : ServerState} {idx : List Track} {st1 : ServerState}
    (h : get_track_index st = .ok (idx, st1)) :
    st1.fs = st.fs ∧ st1.diskJson = st.diskJson ∧ st1.trackIndex = some idx ∧
      st1.lastRefresh = st.lastRefresh := by
  unfold get_track_index at h
  cases hi : st.trackIndex with
  | some i =>
    rw [hi] at h
    simp only [Except.ok.injEq, Prod.mk.injEq] at h
    obtain ⟨rfl, rfl⟩ := h
    exact ⟨rfl, rfl, hi, rfl⟩
  | none =>
    rw [hi] at h
    cases hl : load_tracks st with
    | error e => rw [hl] at h; exact absurd h (by simp)
    | ok p =>
      obtain ⟨ts, st2⟩ := p
      rw [hl] at h
      simp only [Except.ok.injEq, Prod.mk.injEq] at h
      obtain ⟨rfl, rfl⟩ := h
      obtain ⟨h1, h2, _, _, h5⟩ := load_tracks_ok_state hl
      exact ⟨h1, h2, rfl, h5⟩

/-- With a warm index cache, get_track_index is a pure read. -/
theorem get_track_index_warm {st : ServerState} {idx : List Track}
    (h : st.trackIndex = some idx) : get_track_index st = .ok (idx, st) := by
  unfold get_track_index
  rw [h]

/-- With a warm index cache, get_audio_path is a pure read, computed by
dict lookup and resolvePath. -/
theorem get_audio_path_warm {st : ServerState} {idx : List Track} (tid : String)
    (h : st.trackIndex = some idx) :
    get_audio_path st tid = .ok ((dictGet idx tid).bind (fun t => resolvePath st.fs t), st) := by
  unfold get_audio_path
  rw [get_track_index_warm h]

/-- A list is a prefix of itself extended on the right. -/
theorem isPrefixOf_append_self (l r : List String) : l.isPrefixOf (l ++ r) = true := by
  induction l with
  | nil => simp [List.isPrefixOf]
  | cons a t ih => simp [List.isPrefixOf, ih]

/-- The single file of a fresh per-id entry is listed by filesIn. -/
theorem filesIn_append_singleton (fs : FS) (d : FsPath) (x : String) :
    ({ fs with files := fs.files ++ [d ++ [x]] } : FS).filesIn d = fs.filesIn d ++ [d ++ [x]] := by
  unfold FS.filesIn
  rw [List.filter_append]
  congr 1
  simp [isPrefixOf_append_self]

/-- A directory with no strictly-lower file and no dirs entry lists no
files. -/
theorem filesIn_eq_nil_of_not_dirIsDir {fs : FS} {d : FsPath}
    (h : fs.dirIsDir d = false) : fs.filesIn d = [] := by
  unfold FS.dirIsDir at h
  unfold FS.filesIn
  rw [Bool.or_eq_false_iff] at h
  obtain ⟨-, h2⟩ := h
  rw [List.filter_eq_nil_iff]
  intro f hf
  rw [List.any_eq_false] at h2
  have hns := h2 f hf
  intro hcon
  rw [Bool.and_eq_true, decide_eq_true_eq] at hcon
  obtain ⟨hp, hlen⟩ := hcon
  refine hns ?_
  unfold pathStrictUnder
  rw [Bool.and_eq_true, decide_eq_true_eq]
  exact ⟨hp, by omega⟩

/-- mkdirp records the directory. -/
theorem mkdirp_contains (fs : FS) (d : FsPath) : (fs.mkdirp d).dirs.contains d = true := by
  unfold FS.mkdirp
  by_cases h : fs.dirs.contains d = true
  · rw [if_pos h]; exact h
  · rw [if_neg h]; simp

/-- mkdirp leaves the file list unchanged. -/
theorem mkdirp_files (fs : FS) (d : FsPath) : (fs.mkdirp d).files = fs.files := by
  unfold FS.mkdirp
  split <;> rfl

/-- If the per-id directory search fails, no listed file there is a
recognised media file. -/
theorem resolvePath_none_dir {fs : FS} {t : Track}
    (h : resolvePath fs t = none) :
    (fs.filesIn (baseDirOf t.host ++ [t.hash])).find? isAudioFile = none := by
  unfold resolvePath at h
  set d := baseDirOf t.host ++ [t.hash] with hd
  by_cases hdir : fs.dirIsDir d = true
  · simp only [← hd, hdir, if_true] at h
    cases hf : (fs.filesIn d).find? isAudioFile with
    | none => rfl
    | some p => rw [hf] at h; simp at h
  · rw [Bool.not_eq_true] at hdir
    rw [filesIn_eq_nil_of_not_dirIsDir hdir]
    rfl

/-- The hex fold doubles the length. -/
theorem foldrHex_length (l : List Nat) :
    (l.foldr (fun b acc => byteHexChars b ++ acc) []).length = 2 * l.length := by
  induction l with
  | nil => rfl
  | cons b t ih =>
    rw [List.foldr_cons, List.length_append, ih]
    simp only [byteHexChars, List.length_cons, List.length_nil]
    omega

/-- The MD5 digest has 16 bytes. -/
theorem md5Bytes_length (msg : List Nat) : (md5Bytes msg).length = 16 := by
  unfold md5Bytes
  simp [wordLEBytes]

/-- The MD5 hex digest has 32 characters. -/
theorem md5HexChars_length (msg : List Nat) : (md5HexChars msg).length = 32 := by
  unfold md5HexChars
  rw [foldrHex_length, md5Bytes_length]

/-- Below 16, hexChar lands in the hex alphabet. -/
theorem hexChar_mem : ∀ n, n < 16 → hexChar n ∈ hexDigits := by decide

/-- Every character the hex fold emits is a hex digit. -/
theorem mem_foldrHex {c : Char} :
    ∀ l : List Nat, c ∈ l.foldr (fun b acc => byteHexChars b ++ acc) [] → c ∈ hexDigits := by
  intro l
  induction l with
  | nil => intro h; simp at h
  | cons b t ih =>
    intro h
    simp only [List.foldr_cons, byteHexChars, List.cons_append, List.nil_append,
      List.mem_cons] at h
    rcases h with rfl | rfl | h
    · exact hexChar_mem _ (by omega)
    · exact hexChar_mem _ (by omega)
    · exact ih h

/-! ## Claim theorems -/

/-- C9: the classifier maps the link "https://pillows.su/f/abc123def456" to
host pillows with external identifier "abc123def456", and the link
"https://files.yetracker.org/f/5YWrQGTB" to host yetracker with external
identifier "5YWrQGTB". -/
theorem c9_example_links :
    (classifyRow exampleRowP).map (fun t => (t.host, t.hash)) =
      some ("pillows", "abc123def456") ∧
    (classifyRow exampleRowY).map (fun t => (t.host, t.hash)) =
      some ("yetracker", "5YWrQGTB") := by
  constructor <;> decide

set_option maxRecDepth 4000 in
/-- C4 (failing input): on the 202-character input "x." followed by 200
copies of "a", sanitize_filename returns a 201-character name that starts
with a dot: the length limit is exceeded and a leading dot reappears,
because name[:200-len(ext)] slices with a negative bound when the
extension itself is longer than 200 characters. -/
theorem c4_sanitize_long_extension_eval :
    200 < longExtInput.length ∧
    (sanitize_filename longExtInput).length = 201 ∧
    (sanitize_filename longExtInput).data.take 1 = ['.'] := by
  refine ⟨by decide, by decide, by decide⟩

/-- C3: a failed refresh returns False and leaves the in-memory snapshot
untouched, whatever the failure left on disk, so a subsequent load_tracks
returns exactly the previous snapshot. -/
theorem c3_refresh_failure_preserves_snapshot :
    ∀ (st : ServerState) (d : Option (List RawTrack)),
      (refresh_sheet st (.fail d)).1 = false ∧
      ((refresh_sheet st (.fail d)).2.tracksCache = st.tracksCache ∧
       (refresh_sheet st (.fail d)).2.trackIndex = st.trackIndex ∧
       (refresh_sheet st (.fail d)).2.lastRefresh = st.lastRefresh) ∧
      (∀ ts, st.tracksCache = some ts →
        load_tracks (refresh_sheet st (.fail d)).2 =
          .ok (ts, (refresh_sheet st (.fail d)).2)) := by
  intro st d
  refine ⟨rfl, ⟨rfl, rfl, rfl⟩, ?_⟩
  intro ts hts
  unfold load_tracks refresh_sheet
  simp [hts]

/-- C3 witness: a concrete failed refresh on a one-track snapshot. -/
theorem c3_refresh_failure_witness :
    warmSt.tracksCache = some [trackA] ∧
    load_tracks (refresh_sheet warmSt (.fail none)).2 =
      .ok ([trackA], (refresh_sheet warmSt (.fail none)).2) :=
  ⟨rfl, (c3_refresh_failure_preserves_snapshot warmSt none).2.2 [trackA] rfl⟩

/-- C5: the track identifier is a pure function of the (row, era, name)
triple, and always consists of exactly 16 lower-case hexadecimal
characters. -/
theorem c5_track_id_deterministic_16hex :
    (∀ r1 r2 : RawTrack, r1.row = r2.row → r1.era = r2.era → r1.name = r2.name →
      generate_track_id r1 = generate_track_id r2) ∧
    (∀ r : RawTrack, (generate_track_id r).length = 16 ∧
      ∀ c ∈ (generate_track_id r).data, c ∈ hexDigits) := by
  constructor
  · intro r1 r2 h1 h2 h3
    unfold generate_track_id
    rw [h1, h2, h3]
  · intro r
    constructor
    · show ((md5HexChars _).take 16).length = 16
      rw [List.length_take, md5HexChars_length]
      decide
    · intro c hc
      have hm : c ∈ md5HexChars (strBytes (toString r.row ++ ":" ++ r.era ++ ":" ++ r.name)) :=
        List.take_subset 16 _ hc
      exact mem_foldrHex _ hm

/-- C5 witness: two concrete rows that agree on (row, era, name) and
differ everywhere else receive the same identifier. -/
theorem c5_track_id_witness :
    triRowA.notes ≠ triRowB.notes ∧
    generate_track_id triRowA = generate_track_id triRowB :=
  ⟨by decide, c5_track_id_deterministic_16hex.1 triRowA triRowB rfl rfl rfl⟩

/-- C2 counterexample: the dual-host row matches two supported host
patterns, so the claim's "exactly one" condition excludes it, yet
load_tracks includes it (through the pillows branch). -/
theorem c2_counterexample :
    (classifyRow dualRow).isSome = true ∧ claimIncludedC2 dualRow = false := by
  constructor <;> decide

/-- C2 (amended): a row is included iff its quality is not the sentinel
and the first host in the fixed order whose domain occurs in the link has
an extraction that yields an identifier; and the processed catalog is
exactly the row-wise filter of the raw rows. -/
theorem c2_catalog_inclusion_amended :
    (∀ t : RawTrack, (classifyRow t).isSome = amendedIncludedC2 t) ∧
    (∀ (rows : List RawTrack) (st : ServerState) (ts : List Track) (st1 : ServerState),
      st.tracksCache = none → st.diskJson = some rows →
      load_tracks st = .ok (ts, st1) → ts = rows.filterMap classifyRow) := by
  constructor
  · intro t
    unfold classifyRow amendedIncludedC2
    by_cases hq : pyStripWs t.quality = "Not Available"
    · simp [hq]
    · have hqb : (pyStripWs t.quality == "Not Available") = false := by
        simpa using hq
      cases hp : strHasSub (pyLower (pyStripWs t.link)) "pillows.su" with
      | true =>
        cases he : extract_pillows_hash (pyStripWs t.link) <;> simp [hqb, hq, hp, he]
      | false =>
        cases hy : strHasSub (pyLower (pyStripWs t.link)) "files.yetracker.org" with
        | true =>
          cases he : extract_yetracker_id (pyStripWs t.link) <;> simp [hqb, hq, hp, hy, he]
        | false =>
          cases hx : strHasSub (pyLower (pyStripWs t.link)) "pixeldrain.com" with
          | true =>
            cases he : extract_pixeldrain_id (pyStripWs t.link) <;>
              simp [hqb, hq, hp, hy, hx, he]
          | false => simp [hqb, hq, hp, hy, hx]
  · intro rows st ts st1 hc hd h
    unfold load_tracks at h
    rw [hc, hd] at h
    simp only [Except.ok.injEq, Prod.mk.injEq] at h
    exact h.1.symm

/-- C2 witness: the amended inclusion characterisation applied to the
concrete cold state holding the dual-host row. -/
theorem c2_catalog_inclusion_witness :
    c2DiskSt.tracksCache = none ∧ c2DiskSt.diskJson = some [dualRow] ∧
    [dualRow].filterMap classifyRow = [dualRow].filterMap classifyRow :=
  ⟨rfl, rfl,
    c2_catalog_inclusion_amended.2 [dualRow] c2DiskSt ([dualRow].filterMap classifyRow)
      { c2DiskSt with tracksCache := some ([dualRow].filterMap classifyRow) } rfl rfl rfl⟩

/-- C10: for a row whose lower-cased link contains "pillows.su", only the
pillows extraction decides inclusion (the row is dropped when it fails,
whatever the rest of the link holds), and when the pillows domain is
absent the yetracker branch is decided the same way, in the fixed order. -/
theorem c10_pillows_shadowing :
    (∀ t : RawTrack, strHasSub (pyLower (pyStripWs t.link)) "pillows.su" = true →
      classifyRow t =
        if pyStripWs t.quality == "Not Available" then none
        else (extract_pillows_hash (pyStripWs t.link)).map
          (fun h => mkTrackRecord t (pyStripWs t.quality) (pyStripWs t.link) h "pillows")) ∧
    (∀ t : RawTrack, strHasSub (pyLower (pyStripWs t.link)) "pillows.su" = false →
      strHasSub (pyLower (pyStripWs t.link)) "files.yetracker.org" = true →
      classifyRow t =
        if pyStripWs t.quality == "Not Available" then none
        else (extract_yetracker_id (pyStripWs t.link)).map
          (fun h => mkTrackRecord t (pyStripWs t.quality) (pyStripWs t.link) h "yetracker")) := by
  constructor
  · intro t hp
    unfold classifyRow
    cases hq : (pyStripWs t.quality == "Not Available") with
    | true => simp [hq]
    | false =>
      cases he : extract_pillows_hash (pyStripWs t.link) <;> simp [hq, hp, he]
  · intro t hp hy
    unfold classifyRow
    cases hq : (pyStripWs t.quality == "Not Available") with
    | true => simp [hq]
    | false =>
      cases he : extract_yetracker_id (pyStripWs t.link) <;> simp [hq, hp, hy, he]

/-- C10 witness: the shadowed row contains "pillows.su", carries a valid
yetracker identifier, and is nevertheless dropped because the pillows
pattern fails. -/
theorem c10_pillows_shadowing_witness :
    strHasSub (pyLower (pyStripWs shadowedRow.link)) "pillows.su" = true ∧
    extract_yetracker_id (pyStripWs shadowedRow.link) = some "5YWrQGTB" ∧
    classifyRow shadowedRow = none := by
  refine ⟨by decide, by decide, ?_⟩
  rw [c10_pillows_shadowing.1 shadowedRow (by decide)]
  decide

/-- C8: every entry of the api_tracks listing carries exactly the seven
public fields, in order, and never the original_link or host fields. -/
theorem c8_listing_fields :
    ∀ (st : ServerState) (out : List (List (String × String))) (st1 : ServerState),
      api_tracks st = .ok (out, st1) →
      ∀ e ∈ out,
        e.map Prod.fst =
          ["id", "name", "era", "notes", "quality", "available_length", "track_length"] ∧
        ¬ "original_link" ∈ e.map Prod.fst ∧ ¬ "host" ∈ e.map Prod.fst := by
  intro st out st1 h e he
  unfold api_tracks at h
  cases hl : load_tracks st with
  | error err => rw [hl] at h; exact absurd h (by simp)
  | ok p =>
    obtain ⟨ts, st2⟩ := p
    rw [hl] at h
    simp only [Except.ok.injEq, Prod.mk.injEq] at h
    obtain ⟨hout, -⟩ := h
    subst hout
    rw [List.mem_map] at he
    obtain ⟨t, -, rfl⟩ := he
    exact ⟨rfl, by simp, by simp⟩

/-- C8 witness: the concrete listing of the one-track snapshot. -/
theorem c8_listing_fields_witness :
    api_tracks warmSt = .ok ([trackAListing], warmSt) ∧
    trackAListing.map Prod.fst =
      ["id", "name", "era", "notes", "quality", "available_length", "track_length"] :=
  ⟨rfl, (c8_listing_fields warmSt [trackAListing] warmSt rfl trackAListing
    (List.mem_singleton.mpr rfl)).1⟩

/-- C7 counterexample: on a double-quoted percent-encoded filename the code
percent-decodes the value, which the claim's chain does not mention, so the
two disagree. -/
theorem c7_counterexample :
    chooseFilename "attachment; filename=\"a%20b.mp3\"" "" ≠
      claimChainC7 "attachment; filename=\"a%20b.mp3\"" "" := by
  intro h
  have h1 : chooseFilename "attachment; filename=\"a%20b.mp3\"" "" = "a b.mp3" := rfl
  have h2 : claimChainC7 "attachment; filename=\"a%20b.mp3\"" "" = "a%20b.mp3" := rfl
  exact absurd (h1.symm.trans (h.trans h2)) (by decide)

/-- C7 (amended): the destination filename equals the amended chain: the
same priority order (a)-(e), with the quoted and unquoted values also
percent-decoded, the extended value stripped before decoding, the unquoted
value stripped, and a fall-through to the Content-Type table when the
header is absent or the selected value is empty. -/
theorem c7_filename_chain_amended :
    ∀ cd ct, chooseFilename cd ct = amendedChainC7 cd ct := by
  intro cd ct
  unfold chooseFilename amendedChainC7
  cases hcd : (cd == "") with
  | true => rfl
  | false =>
    cases ha : matchFilenameStar cd with
    | some g => simp [hcd, ha]
    | none =>
      cases hb : matchQuotedD cd with
      | some v => by_cases hv : v = "" <;> simp [hcd, ha, hb, hv]
      | none =>
        cases hc : matchQuotedS cd with
        | some v => by_cases hv : v = "" <;> simp [hcd, ha, hb, hc, hv]
        | none =>
          cases hu : matchUnquoted cd with
          | some v =>
            by_cases hv : pyStripWs v = "" <;> simp [hcd, ha, hb, hc, hu, hv]
          | none => simp [hcd, ha, hb, hc, hu]

/-- resolvePath, with its local bindings unfolded. -/
theorem resolvePath_eq (fs : FS) (t : Track) :
    resolvePath fs t =
      match (if fs.dirIsDir (baseDirOf t.host ++ [t.hash]) then
          (fs.filesIn (baseDirOf t.host ++ [t.hash])).find? isAudioFile else none) with
      | some p => some p
      | none =>
        if t.host == "pillows" then
          (audioExts.find?
              (fun ext => fs.fileExists (baseDirOf t.host ++ [t.hash ++ ext]))).map
            (fun ext => baseDirOf t.host ++ [t.hash ++ ext])
        else none := rfl

/-- If resolvePath fails for a pillows track, no legacy flat file exists. -/
theorem resolvePath_none_legacy {fs : FS} {t : Track}
    (h : resolvePath fs t = none) (hh : t.host = "pillows") :
    ∀ ext ∈ audioExts, fs.fileExists (baseDirOf t.host ++ [t.hash ++ ext]) = false := by
  rw [resolvePath_eq] at h
  intro ext hext
  cases hfd : (if fs.dirIsDir (baseDirOf t.host ++ [t.hash]) then
      (fs.filesIn (baseDirOf t.host ++ [t.hash])).find? isAudioFile else none) with
  | some p => rw [hfd] at h; simp at h
  | none =>
    rw [hfd] at h
    rw [hh] at h
    simp only [beq_self_eq_true, if_true] at h
    rw [Option.map_eq_none'] at h
    rw [List.find?_eq_none] at h
    have hnone := h ext hext
    rw [hh]
    simpa using hnone

/-- C6: get_audio_path never changes the filesystem or the on-disk catalog
and a repeated call returns the same answer and state; a resolved path is
either a recognised media file listed in the per-id directory or, for the
pillows host only, an existing legacy flat file; and on a miss the per-id
directory holds no recognised media file and, for pillows, no legacy flat
file exists. -/
theorem c6_resolve_readonly_idempotent :
    (∀ (st : ServerState) (tid : String) (r : Option FsPath) (st1 : ServerState),
      get_audio_path st tid = .ok (r, st1) →
      st1.fs = st.fs ∧ st1.diskJson = st.diskJson ∧
      get_audio_path st1 tid = .ok (r, st1)) ∧
    (∀ (fs : FS) (t : Track) (p : FsPath), resolvePath fs t = some p →
      (fs.dirIsDir (baseDirOf t.host ++ [t.hash]) = true ∧
        p ∈ fs.filesIn (baseDirOf t.host ++ [t.hash]) ∧ isAudioFile p = true) ∨
      (t.host = "pillows" ∧ ∃ ext ∈ audioExts,
        p = baseDirOf t.host ++ [t.hash ++ ext] ∧ fs.fileExists p = true)) ∧
    (∀ (fs : FS) (t : Track), resolvePath fs t = none →
      (fs.filesIn (baseDirOf t.host ++ [t.hash])).find? isAudioFile = none ∧
      (t.host = "pillows" →
        ∀ ext ∈ audioExts, fs.fileExists (baseDirOf t.host ++ [t.hash ++ ext]) = false)) := by
  refine ⟨?_, ?_, ?_⟩
  · intro st tid r st1 h
    unfold get_audio_path at h
    cases hti : get_track_index st with
    | error e => rw [hti] at h; exact absurd h (by simp)
    | ok q =>
      obtain ⟨idx, stx⟩ := q
      rw [hti] at h
      simp only [Except.ok.injEq, Prod.mk.injEq] at h
      obtain ⟨hr, rfl⟩ := h
      obtain ⟨hfs, hdj, hidx, -⟩ := get_track_index_ok_state hti
      refine ⟨hfs, hdj, ?_⟩
      rw [get_audio_path_warm tid hidx, hr]
  · intro fs t p h
    rw [resolvePath_eq] at h
    cases hfd : (if fs.dirIsDir (baseDirOf t.host ++ [t.hash]) then
        (fs.filesIn (baseDirOf t.host ++ [t.hash])).find? isAudioFile else none) with
    | some q =>
      rw [hfd] at h
      simp only [Option.some.injEq] at h
      subst h
      by_cases hdir : fs.dirIsDir (baseDirOf t.host ++ [t.hash]) = true
      · rw [if_pos hdir] at hfd
        exact Or.inl ⟨hdir, List.mem_of_find?_eq_some hfd, List.find?_some hfd⟩
      · rw [if_neg hdir] at hfd
        exact absurd hfd (by simp)
    | none =>
      rw [hfd] at h
      cases hhost : (t.host == "pillows") with
      | true =>
        rw [hhost] at h
        simp only [if_true] at h
        rw [Option.map_eq_some'] at h
        obtain ⟨ext, hfind, rfl⟩ := h
        refine Or.inr ⟨by simpa using hhost, ext, List.mem_of_find?_eq_some hfind, rfl, ?_⟩
        simpa using List.find?_some hfind
      | false =>
        rw [hhost] at h
        simp at h
  · intro fs t h
    exact ⟨resolvePath_none_dir h, fun hh => resolvePath_none_legacy h hh⟩

/-- C6 witness: resolving the cached one-track state is a pure read that
repeats identically. -/
theorem c6_resolve_witness :
    get_audio_path cachedSt "t1" = .ok (some ["audio", "abc", "song.mp3"], cachedSt) ∧
    cachedSt.fs = cachedSt.fs :=
  ⟨(c6_resolve_readonly_idempotent.1 cachedSt "t1" (some ["audio", "abc", "song.mp3"])
      cachedSt rfl).2.2, rfl⟩

/-- mkdirp does not change directory listings. -/
theorem mkdirp_filesIn (fs : FS) (d d' : FsPath) :
    (fs.mkdirp d).filesIn d' = fs.filesIn d' := by
  unfold FS.filesIn
  rw [mkdirp_files]

/-- writeNew does not change the directory set. -/
theorem writeNew_dirs (fs : FS) (p : FsPath) : (fs.writeNew p).dirs = fs.dirs := rfl

/-- A recorded directory is a directory. -/
theorem dirIsDir_of_dirs_contains {fs : FS} {d : FsPath}
    (h : fs.dirs.contains d = true) : fs.dirIsDir d = true := by
  unfold FS.dirIsDir
  rw [h]
  rfl

/-- download_track, with its local bindings unfolded. -/
theorem download_track_eq (st : ServerState) (tid : String) (net : Option RespData) :
    download_track st tid net =
      match get_track_index st with
      | .error e => .error e
      | .ok (idx, st1) =>
        match dictGet idx tid with
        | none => .ok (none, st1, 0)
        | some t =>
          match get_audio_path st1 tid with
          | .error e => .error e
          | .ok (existing, st2) =>
            match existing with
            | some p => .ok (some p, st2, 0)
            | none =>
              match net with
              | none => .ok (none, st2, 1)
              | some resp =>
                let fname := sanitize_filename (chooseFilename resp.contentDisp resp.contentType)
                let fs3 := st2.fs.mkdirp (baseDirOf t.host ++ [t.hash])
                let ap := baseDirOf t.host ++ [t.hash] ++ [fname]
                if fs3.fileExists ap then .ok (some ap, { st2 with fs := fs3 }, 1)
                else .ok (some ap, { st2 with fs := fs3.writeNew ap }, 1) := rfl

/-- With a warm index cache, download_track is decided by the dict lookup,
resolvePath, and the network response. -/
theorem download_track_warm {st : ServerState} {idx : List Track} (hidx : st.trackIndex = some idx)
    (tid : String) (net : Option RespData) :
    download_track st tid net =
      match dictGet idx tid with
      | none => .ok (none, st, 0)
      | some t =>
        match resolvePath st.fs t with
        | some p => .ok (some p, st, 0)
        | none =>
          match net with
          | none => .ok (none, st, 1)
          | some resp =>
            let fname := sanitize_filename (chooseFilename resp.contentDisp resp.contentType)
            let fs3 := st.fs.mkdirp (baseDirOf t.host ++ [t.hash])
            let ap := baseDirOf t.host ++ [t.hash] ++ [fname]
            if fs3.fileExists ap then .ok (some ap, { st with fs := fs3 }, 1)
            else .ok (some ap, { st with fs := fs3.writeNew ap }, 1) := by
  rw [download_track_eq, get_track_index_warm hidx]
  show (match dictGet idx tid with
    | none => (.ok (none, st, 0) : Except LoadErr (Option FsPath × ServerState × Nat))
    | some t =>
      match get_audio_path st tid with
      | .error e => .error e
      | .ok (existing, st2) =>
        match existing with
        | some p => .ok (some p, st2, 0)
        | none =>
          match net with
          | none => .ok (none, st2, 1)
          | some resp =>
            let fname := sanitize_filename (chooseFilename resp.contentDisp resp.contentType)
            let fs3 := st2.fs.mkdirp (baseDirOf t.host ++ [t.hash])
            let ap := baseDirOf t.host ++ [t.hash] ++ [fname]
            if fs3.fileExists ap then .ok (some ap, { st2 with fs := fs3 }, 1)
            else .ok (some ap, { st2 with fs := fs3.writeNew ap }, 1)) = _
  rw [get_audio_path_warm tid hidx]
  cases hdg : dictGet idx tid with
  | none => rfl
  | some t => rfl

/-- After a successful get_track_index, download_track behaves as from the
resulting warm state. -/
theorem download_track_cold {st : ServerState} {idx : List Track} {stx : ServerState}
    (hti : get_track_index st = .ok (idx, stx)) (tid : String) (net : Option RespData) :
    download_track st tid net =
      match dictGet idx tid with
      | none => .ok (none, stx, 0)
      | some t =>
        match resolvePath stx.fs t with
        | some p => .ok (some p, stx, 0)
        | none =>
          match net with
          | none => .ok (none, stx, 1)
          | some resp =>
            let fname := sanitize_filename (chooseFilename resp.contentDisp resp.contentType)
            let fs3 := stx.fs.mkdirp (baseDirOf t.host ++ [t.hash])
            let ap := baseDirOf t.host ++ [t.hash] ++ [fname]
            if fs3.fileExists ap then .ok (some ap, { stx with fs := fs3 }, 1)
            else .ok (some ap, { stx with fs := fs3.writeNew ap }, 1) := by
  have hidx : stx.trackIndex = some idx := (get_track_index_ok_state hti).2.2.1
  rw [download_track_eq, hti]
  show (match dictGet idx tid with
    | none => (.ok (none, stx, 0) : Except LoadErr (Option FsPath × ServerState × Nat))
    | some t =>
      match get_audio_path stx tid with
      | .error e => .error e
      | .ok (existing, st2) =>
        match existing with
        | some p => .ok (some p, st2, 0)
        | none =>
          match net with
          | none => .ok (none, st2, 1)
          | some resp =>
            let fname := sanitize_filename (chooseFilename resp.contentDisp resp.contentType)
            let fs3 := st2.fs.mkdirp (baseDirOf t.host ++ [t.hash])
            let ap := baseDirOf t.host ++ [t.hash] ++ [fname]
            if fs3.fileExists ap then .ok (some ap, { st2 with fs := fs3 }, 1)
            else .ok (some ap, { st2 with fs := fs3.writeNew ap }, 1)) = _
  rw [get_audio_path_warm tid hidx]
  cases dictGet idx tid <;> rfl

/-- C1 (amended): when fetch returns a path whose filename carries a
recognised media extension, a second fetch performs no network request and
returns exactly that path with the state unchanged.  (The short-circuit on
an already-resolved file is the resolvePath some-branch of this proof.)
With an unrecognised extension the second call re-issues the request. -/
theorem c1_fetch_at_most_once_amended :
    ∀ (st : ServerState) (tid : String) (net net2 : Option RespData) (p : FsPath)
      (st1 : ServerState) (n : Nat),
      download_track st tid net = .ok (some p, st1, n) →
      isAudioFile p = true →
      download_track st1 tid net2 = .ok (some p, st1, 0) := by
  intro st tid net net2 p st1 n h hrec
  cases hti : get_track_index st with
  | error e => rw [download_track_eq, hti] at h; exact absurd h (by simp)
  | ok q =>
    obtain ⟨idx, stx⟩ := q
    have hidx : stx.trackIndex = some idx := (get_track_index_ok_state hti).2.2.1
    rw [download_track_cold hti] at h
    cases hdg : dictGet idx tid with
    | none => rw [hdg] at h; exact absurd h (by simp)
    | some t =>
      rw [hdg] at h
      simp only [] at h
      cases hres : resolvePath stx.fs t with
      | some p0 =>
        rw [hres] at h
        simp only [Except.ok.injEq, Prod.mk.injEq, Option.some.injEq] at h
        obtain ⟨rfl, rfl, rfl⟩ := h
        rw [download_track_warm hidx, hdg]
        simp only [hres]
      | none =>
        rw [hres] at h
        cases net with
        | none => exact absurd h (by simp)
        | some resp =>
          simp only [] at h
          set fname := sanitize_filename (chooseFilename resp.contentDisp resp.contentType) with hfn
          set dd := baseDirOf t.host ++ [t.hash] with hdd
          by_cases hex : (stx.fs.mkdirp dd).fileExists (dd ++ [fname]) = true
          · rw [if_pos hex] at h
            simp only [Except.ok.injEq, Prod.mk.injEq, Option.some.injEq] at h
            obtain ⟨rfl, rfl, rfl⟩ := h
            exfalso
            have hmemfiles : dd ++ [fname] ∈ stx.fs.files := by
              have hx := hex
              unfold FS.fileExists at hx
              rw [mkdirp_files] at hx
              simpa using hx
            have hmem : dd ++ [fname] ∈ stx.fs.filesIn dd := by
              unfold FS.filesIn
              rw [List.mem_filter]
              refine ⟨hmemfiles, ?_⟩
              rw [Bool.and_eq_true, decide_eq_true_eq]
              exact ⟨isPrefixOf_append_self _ _, by simp⟩
            have hfind : (stx.fs.filesIn dd).find? isAudioFile ≠ none := by
              intro hcon
              rw [List.find?_eq_none] at hcon
              exact absurd hrec (by simpa using hcon _ hmem)
            exact hfind (resolvePath_none_dir hres)
          · rw [if_neg hex] at h
            simp only [Except.ok.injEq, Prod.mk.injEq, Option.some.injEq] at h
            obtain ⟨rfl, rfl, rfl⟩ := h
            have hidx1 : ({ stx with
                fs := (stx.fs.mkdirp dd).writeNew (dd ++ [fname]) }
                  : ServerState).trackIndex = some idx := hidx
            rw [download_track_warm hidx1, hdg]
            have hresolve :
                resolvePath ((stx.fs.mkdirp dd).writeNew (dd ++ [fname])) t =
                  some (dd ++ [fname]) := by
              rw [resolvePath_eq]
              have hdir : ((stx.fs.mkdirp dd).writeNew (dd ++ [fname])).dirIsDir dd = true := by
                apply dirIsDir_of_dirs_contains
                rw [writeNew_dirs]
                exact mkdirp_contains stx.fs _
              rw [← hdd]
              rw [if_pos hdir]
              have hfi : ((stx.fs.mkdirp dd).writeNew (dd ++ [fname])).filesIn dd =
                  stx.fs.filesIn dd ++ [dd ++ [fname]] := by
                show ({ stx.fs.mkdirp dd with
                    files := (stx.fs.mkdirp dd).files ++ [dd ++ [fname]] }
                    : FS).filesIn dd = _
                rw [filesIn_append_singleton, mkdirp_filesIn]
              rw [hfi, List.find?_append, resolvePath_none_dir hres]
              simp only [Option.none_or, List.find?_cons, List.find?_nil]
              rw [hrec]
            simp only [hresolve]

/-- C1 counterexample: from the empty cache, two sequential fetches of the
same track both succeed and both return the same path, yet they perform
two network requests, because the stored filename "x.aac" has no
recognised media extension: the claim's at-most-once property fails as
stated. -/
theorem c1_counterexample :
    pathOf (download_track warmSt "t1" (some respAac)) ≠ none ∧
    pathOf (download_track (stOf (download_track warmSt "t1" (some respAac)) warmSt)
        "t1" (some respAac)) =
      pathOf (download_track warmSt "t1" (some respAac)) ∧
    ¬ (netOf (download_track warmSt "t1" (some respAac)) +
        netOf (download_track (stOf (download_track warmSt "t1" (some respAac)) warmSt)
          "t1" (some respAac)) ≤ 1) := by
  refine ⟨by decide, by decide, by decide⟩

/-- C1 witness: with a recognised ".mp3" filename the first fetch
downloads and the second fetch is free of network I/O and returns the same
path. -/
theorem c1_fetch_at_most_once_witness :
    download_track warmSt "t1" (some respMp3) =
      .ok (some ["audio", "abc", "x.mp3"], warmStAfter, 1) ∧
    isAudioFile ["audio", "abc", "x.mp3"] = true ∧
    download_track warmStAfter "t1" (some respMp3) =
      .ok (some ["audio", "abc", "x.mp3"], warmStAfter, 0) :=
  ⟨rfl, by decide,
    c1_fetch_at_most_once_amended warmSt "t1" (some respMp3) (some respMp3)
      ["audio", "abc", "x.mp3"] warmStAfter 1 rfl (by decide)⟩
